import Mathlib

/-!
Shallow embedding of the SimpleMicroservices FastAPI service
(`main.py`, `models/course.py`, `models/registration.py`).

Modelling conventions:
* Python dicts (the in-memory stores) are insertion-ordered association
  lists `List (Nat × α)`; `lookup` is a dict read, `setKey` is dict
  assignment (replace the existing entry in place, otherwise append) —
  this matches CPython dict semantics.
* UUIDs are natural numbers; `uuid4()` results appear as explicit
  parameters (`freshId`) of the operations that generate them.
* `datetime.utcnow()` is a natural-number timestamp supplied as a `now`
  parameter to each operation that calls it.
* `raise HTTPException` is modelled by returning `Except.error`; the
  unguarded dict access `courses[registration.course_id]` in
  `update_registration` is modelled by `ApiError.keyError`.
* Pydantic model objects are mutable and aliased in Python: an in-place
  field mutation of an object fetched at key `k` is modelled as a write
  of the new value at key `k`, followed by the explicit dict assignment
  the code performs.
-/

/-- Read of a Python dict modelled as an insertion-ordered association list. -/
def lookup {α : Type} (m : List (Nat × α)) (k : Nat) : Option α :=
  match m with
  | [] => none
  | (k', v) :: rest => if k' = k then some v else lookup rest k

/-- Python dict assignment `m[k] = v`: replace the entry with key `k` in
place, or append a new entry at the end. -/
def setKey {α : Type} (m : List (Nat × α)) (k : Nat) (v : α) : List (Nat × α) :=
  match m with
  | [] => [(k, v)]
  | (k', v') :: rest => if k' = k then (k, v) :: rest else (k', v') :: setKey rest k v

/-- Keys of the association list are pairwise distinct (true of every
Python dict). -/
def KeysUnique {α : Type} (m : List (Nat × α)) : Prop := (m.map Prod.fst).Nodup

/-- Errors surfaced by the endpoints: `HTTPException(404, d)`,
`HTTPException(400, d)`, and an uncaught Python `KeyError`. -/
inductive ApiError where
  | notFound : String → ApiError
  | badRequest : String → ApiError
  | keyError : ApiError
  deriving Repr, DecidableEq

/-- Modelled from the spec: `models/person.py` is not under `src/`.
A Person carries identity and contact attributes (abstracted into a
single `payload` field, which the claims never inspect); per spec §3 and
the comment in `create_person`, its id is generated server-side, so the
creation payload carries no id. -/
structure PersonCreate where
  payload : String
  deriving Repr, DecidableEq

/-- Modelled from the spec: server representation of a Person
(`models/person.py` is not under `src/`): the creation payload plus a
server-generated id. -/
structure PersonRead where
  id : Nat
  payload : String
  deriving Repr, DecidableEq

/-- Modelled from the spec: partial update for a Person; only supplied
fields change, and the id is not client-assignable. -/
structure PersonUpdate where
  payload : Option String
  deriving Repr, DecidableEq

/-- Modelled from the spec: `models/address.py` is not under `src/`.
An Address has street/city/state/postal_code/country (spec §3); in
addition, `create_address` in `main.py` reads `address.id` from the
creation payload and keys the store by it, so the payload carries an id. -/
structure AddressCreate where
  id : Nat
  street : String
  city : String
  state : String
  postal_code : String
  country : String
  deriving Repr, DecidableEq

/-- Modelled from the spec: server representation of an Address; built by
`AddressRead(**address.model_dump())` in `main.py`, so every field,
including the id, is copied from the creation payload. -/
structure AddressRead where
  id : Nat
  street : String
  city : String
  state : String
  postal_code : String
  country : String
  deriving Repr, DecidableEq

/-- Modelled from the spec: partial update for an Address; only supplied
fields change. -/
structure AddressUpdate where
  street : Option String
  city : Option String
  state : Option String
  postal_code : Option String
  country : Option String
  deriving Repr, DecidableEq

/-- `CourseBase`/`CourseCreate` from `models/course.py`: every field is
required, including `capacity` and `enrollment`. -/
structure CourseCreate where
  coursenumber : String
  instructor : String
  time : String
  location : String
  capacity : Int
  enrollment : Int
  deriving Repr, DecidableEq

/-- `CourseRead` from `models/course.py`: the base fields plus a
server-generated id and timestamps. -/
structure CourseRead where
  id : Nat
  coursenumber : String
  instructor : String
  time : String
  location : String
  capacity : Int
  enrollment : Int
  created_at : Nat
  updated_at : Nat
  deriving Repr, DecidableEq

/-- `CourseUpdate` from `models/course.py`: all fields optional,
`enrollment` included. `none` models a field absent from the request body
(`model_dump(exclude_unset=True)` drops it). -/
structure CourseUpdate where
  coursenumber : Option String
  instructor : Option String
  time : Option String
  location : Option String
  capacity : Option Int
  enrollment : Option Int
  deriving Repr, DecidableEq

/-- `RegistrationCreate` from `models/registration.py`. -/
structure RegistrationCreate where
  person_id : Nat
  course_id : Nat
  deriving Repr, DecidableEq

/-- `RegistrationRead` from `models/registration.py`. -/
structure RegistrationRead where
  id : Nat
  person_id : Nat
  course_id : Nat
  status : String
  created_at : Nat
  updated_at : Nat
  deriving Repr, DecidableEq

/-- `RegistrationUpdate` from `models/registration.py`: only `status` is
updatable. -/
structure RegistrationUpdate where
  status : Option String
  deriving Repr, DecidableEq

/-- The four module-level stores of `main.py`. -/
structure AppState where
  persons : List (Nat × PersonRead)
  addresses : List (Nat × AddressRead)
  courses : List (Nat × CourseRead)
  registrations : List (Nat × RegistrationRead)
  deriving Repr, DecidableEq

/-- The stores start empty. -/
def initialState : AppState := ⟨[], [], [], []⟩

/-- `POST /addresses` (`create_address` in `main.py`): 400 if the
payload's id is already a key, else store the record under that id. -/
def create_address (st : AppState) (address : AddressCreate) :
    Except ApiError (AddressRead × AppState) :=
  if (lookup st.addresses address.id).isSome then
    Except.error (ApiError.badRequest "Address with this ID already exists")
  else
    let ar : AddressRead :=
      { id := address.id, street := address.street, city := address.city,
        state := address.state, postal_code := address.postal_code,
        country := address.country }
    Except.ok (ar, { st with addresses := setKey st.addresses address.id ar })

/-- `PATCH /addresses/{address_id}` (`update_address` in `main.py`):
404 when unknown, else apply only the supplied fields. -/
def update_address (st : AppState) (address_id : Nat) (update : AddressUpdate) :
    Except ApiError (AddressRead × AppState) :=
  match lookup st.addresses address_id with
  | none => Except.error (ApiError.notFound "Address not found")
  | some stored =>
    let ar : AddressRead :=
      { id := stored.id,
        street := update.street.getD stored.street,
        city := update.city.getD stored.city,
        state := update.state.getD stored.state,
        postal_code := update.postal_code.getD stored.postal_code,
        country := update.country.getD stored.country }
    Except.ok (ar, { st with addresses := setKey st.addresses address_id ar })

/-- `POST /persons` (`create_person` in `main.py`): build a `PersonRead`
with a server-generated id and store it under that id. -/
def create_person (st : AppState) (person : PersonCreate) (freshId : Nat) :
    PersonRead × AppState :=
  let person_read : PersonRead := { id := freshId, payload := person.payload }
  (person_read, { st with persons := setKey st.persons person_read.id person_read })

/-- `PATCH /persons/{person_id}` (`update_person` in `main.py`):
404 when unknown, else apply only the supplied fields. -/
def update_person (st : AppState) (person_id : Nat) (update : PersonUpdate) :
    Except ApiError (PersonRead × AppState) :=
  match lookup st.persons person_id with
  | none => Except.error (ApiError.notFound "Person not found")
  | some stored =>
    let pr : PersonRead := { id := stored.id, payload := update.payload.getD stored.payload }
    Except.ok (pr, { st with persons := setKey st.persons person_id pr })

/-- `POST /courses` (`create_course` in `main.py`): build a `CourseRead`
from the payload — `capacity` and `enrollment` come from the client —
with a server-generated id and timestamps, and store it under its id. -/
def create_course (st : AppState) (course : CourseCreate) (freshId now : Nat) :
    CourseRead × AppState :=
  let course_read : CourseRead :=
    { id := freshId, coursenumber := course.coursenumber,
      instructor := course.instructor, time := course.time,
      location := course.location, capacity := course.capacity,
      enrollment := course.enrollment, created_at := now, updated_at := now }
  (course_read, { st with courses := setKey st.courses course_read.id course_read })

/-- `PATCH /courses/{course_id}` (`update_course` in `main.py`):
404 when unknown, else overlay the supplied fields — `enrollment`
included when supplied — and refresh `updated_at`. -/
def update_course (st : AppState) (course_id : Nat) (update : CourseUpdate) (now : Nat) :
    Except ApiError (CourseRead × AppState) :=
  match lookup st.courses course_id with
  | none => Except.error (ApiError.notFound "Course not found")
  | some stored =>
    let cr : CourseRead :=
      { id := stored.id,
        coursenumber := update.coursenumber.getD stored.coursenumber,
        instructor := update.instructor.getD stored.instructor,
        time := update.time.getD stored.time,
        location := update.location.getD stored.location,
        capacity := update.capacity.getD stored.capacity,
        enrollment := update.enrollment.getD stored.enrollment,
        created_at := stored.created_at,
        updated_at := now }
    Except.ok (cr, { st with courses := setKey st.courses course_id cr })

/-- Python runtime values, as far as the `==` in `list_courses` needs
them: `str(p.enrollment)` is a `str`, the query parameter is an `int`. -/
inductive PyVal where
  | pyStr : String → PyVal
  | pyInt : Int → PyVal
  deriving Repr, DecidableEq

/-- Python `==` between primitive values: equal only within one type;
a `str` never equals an `int`. -/
def pyEq : PyVal → PyVal → Bool
  | PyVal.pyStr a, PyVal.pyStr b => a == b
  | PyVal.pyInt a, PyVal.pyInt b => a == b
  | _, _ => false

/-- `GET /courses` (`list_courses` in `main.py`): conjunctive filters;
the `enrollment` filter compares `str(p.enrollment)` with the integer
query parameter using Python `==`. -/
def list_courses (st : AppState) (coursenumber instructor time location : Option String)
    (capacity enrollment : Option Int) : List CourseRead :=
  let results := st.courses.map Prod.snd
  let results := match coursenumber with
    | none => results
    | some q => results.filter (fun p => p.coursenumber = q)
  let results := match instructor with
    | none => results
    | some q => results.filter (fun p => p.instructor = q)
  let results := match time with
    | none => results
    | some q => results.filter (fun p => p.time = q)
  let results := match location with
    | none => results
    | some q => results.filter (fun p => p.location = q)
  let results := match capacity with
    | none => results
    | some q => results.filter (fun p => p.capacity = q)
  let results := match enrollment with
    | none => results
    | some q => results.filter (fun p => pyEq (PyVal.pyStr (toString p.enrollment)) (PyVal.pyInt q))
  results

/-- `POST /registrations` (`create_registration` in `main.py`): 404 when
the person or the course is unknown; otherwise decide
enrolled-vs-waitlisted from `enrollment < capacity`, increment the course
object in place when enrolling, store the new registration under a fresh
id, and write the course object back under `course.id`. -/
def create_registration (st : AppState) (reg : RegistrationCreate) (freshId now : Nat) :
    Except ApiError (RegistrationRead × AppState) :=
  match lookup st.persons reg.person_id with
  | none => Except.error (ApiError.notFound "Person not found")
  | some _ =>
    match lookup st.courses reg.course_id with
    | none => Except.error (ApiError.notFound "Course not found")
    | some course =>
      if course.enrollment < course.capacity then
        let course' := { course with enrollment := course.enrollment + 1 }
        let registration_read : RegistrationRead :=
          { id := freshId, person_id := reg.person_id, course_id := reg.course_id,
            status := "enrolled", created_at := now, updated_at := now }
        let courses' := setKey (setKey st.courses reg.course_id course') course'.id course'
        Except.ok (registration_read,
          { st with registrations := setKey st.registrations freshId registration_read,
                    courses := courses' })
      else
        let registration_read : RegistrationRead :=
          { id := freshId, person_id := reg.person_id, course_id := reg.course_id,
            status := "waitlisted", created_at := now, updated_at := now }
        Except.ok (registration_read,
          { st with registrations := setKey st.registrations freshId registration_read,
                    courses := setKey st.courses course.id course })

/-- The `next(...)` scan in `update_registration`: first registration in
store insertion order whose `course_id` is `cid` and whose status is
`"waitlisted"`, together with the key it is stored under. -/
def findWaitlisted (regs : List (Nat × RegistrationRead)) (cid : Nat) :
    Option (Nat × RegistrationRead) :=
  match regs with
  | [] => none
  | (k, r) :: rest =>
    if r.course_id = cid ∧ r.status = "waitlisted" then some (k, r)
    else findWaitlisted rest cid

/-- `update_registration` in `main.py`: 404 when the registration is
unknown; overlay the supplied `status`; look the course up (an unguarded
dict access — `keyError` when absent); on the `enrolled` → `dropped`
transition decrement the course in place, promote the first waitlisted
registration of the course (in-place status flip plus a write under its
id) and re-increment; finally write the updated registration under the
request's id and the course object under `course.id`. -/
def update_registration (st : AppState) (registration_id : Nat) (update : RegistrationUpdate) :
    Except ApiError (RegistrationRead × AppState) :=
  match lookup st.registrations registration_id with
  | none => Except.error (ApiError.notFound "Registration not found")
  | some stored =>
    let registration : RegistrationRead :=
      match update.status with
      | none => stored
      | some s => { stored with status := s }
    match lookup st.courses registration.course_id with
    | none => Except.error ApiError.keyError
    | some course =>
      let old_status := stored.status
      let new_status := registration.status
      if old_status = "enrolled" ∧ new_status = "dropped" then
        let course₁ := { course with enrollment := course.enrollment - 1 }
        match findWaitlisted st.registrations course.id with
        | some (k, w) =>
          let w' := { w with status := "enrolled" }
          let course₂ := { course₁ with enrollment := course₁.enrollment + 1 }
          let regs' := setKey (setKey (setKey st.registrations k w') w'.id w')
            registration_id registration
          let courses' := setKey (setKey st.courses registration.course_id course₂)
            course₂.id course₂
          Except.ok (registration, { st with registrations := regs', courses := courses' })
        | none =>
          let regs' := setKey st.registrations registration_id registration
          let courses' := setKey (setKey st.courses registration.course_id course₁)
            course₁.id course₁
          Except.ok (registration, { st with registrations := regs', courses := courses' })
      else
        let regs' := setKey st.registrations registration_id registration
        let courses' := setKey st.courses course.id course
        Except.ok (registration, { st with registrations := regs', courses := courses' })

/-- One client request against the service, with the server-generated
values (`uuid4`, `utcnow`) made explicit parameters. -/
inductive Op where
  | createPerson (p : PersonCreate) (freshId : Nat)
  | updatePerson (person_id : Nat) (u : PersonUpdate)
  | createAddress (a : AddressCreate)
  | updateAddress (address_id : Nat) (u : AddressUpdate)
  | createCourse (c : CourseCreate) (freshId now : Nat)
  | updateCourse (course_id : Nat) (u : CourseUpdate) (now : Nat)
  | createRegistration (r : RegistrationCreate) (freshId now : Nat)
  | updateRegistration (registration_id : Nat) (u : RegistrationUpdate)
  deriving Repr, DecidableEq

/-- Effect of one request on the stores; a request that raises leaves the
stores unchanged (every endpoint checks existence before mutating). -/
def applyOp (st : AppState) : Op → AppState
  | Op.createPerson p freshId => (create_person st p freshId).2
  | Op.updatePerson person_id u =>
    match update_person st person_id u with
    | Except.ok (_, st') => st'
    | Except.error _ => st
  | Op.createAddress a =>
    match create_address st a with
    | Except.ok (_, st') => st'
    | Except.error _ => st
  | Op.updateAddress address_id u =>
    match update_address st address_id u with
    | Except.ok (_, st') => st'
    | Except.error _ => st
  | Op.createCourse c freshId now => (create_course st c freshId now).2
  | Op.updateCourse course_id u now =>
    match update_course st course_id u now with
    | Except.ok (_, st') => st'
    | Except.error _ => st
  | Op.createRegistration r freshId now =>
    match create_registration st r freshId now with
    | Except.ok (_, st') => st'
    | Except.error _ => st
  | Op.updateRegistration registration_id u =>
    match update_registration st registration_id u with
    | Except.ok (_, st') => st'
    | Except.error _ => st

/-- Run a sequence of requests from a given state. -/
def runOps (ops : List Op) (st : AppState) : AppState := ops.foldl applyOp st

/-- A state the service can be in after some sequence of requests. -/
def Reachable (st : AppState) : Prop := ∃ ops, runOps ops initialState = st

/-- Contribution of one registration to the enrolled count of course
`cid`: 1 when it references `cid` with status `"enrolled"`. -/
def contrib (cid : Nat) (r : RegistrationRead) : Nat :=
  if r.course_id = cid ∧ r.status = "enrolled" then 1 else 0

/-- Number of stored registrations for course `cid` in `"enrolled"`
status. -/
def enrolledCount (regs : List (Nat × RegistrationRead)) (cid : Nat) : Nat :=
  (regs.map (fun kr => contrib cid kr.2)).sum

/-- The spec's ledger invariant: each course's `enrollment` equals the
number of stored registrations for that course in `"enrolled"` status. -/
def LedgerInvariant (st : AppState) : Prop :=
  ∀ kc ∈ st.courses, kc.2.enrollment = (enrolledCount st.registrations kc.1 : Int)

/-- Every course satisfies `enrollment ≤ capacity`. -/
def CapBound (st : AppState) : Prop :=
  ∀ kc ∈ st.courses, kc.2.enrollment ≤ kc.2.capacity

/-- Every course satisfies `0 ≤ enrollment`. -/
def EnrollNonneg (st : AppState) : Prop :=
  ∀ kc ∈ st.courses, (0 : Int) ≤ kc.2.enrollment

/-- Referential integrity: every stored registration references an
existing person and an existing course. -/
def RefIntegrity (st : AppState) : Prop :=
  ∀ kr ∈ st.registrations,
    (lookup st.persons kr.2.person_id).isSome = true ∧
    (lookup st.courses kr.2.course_id).isSome = true

/-- Every course record is stored under its own id. -/
def CourseIdInv (st : AppState) : Prop := ∀ kc ∈ st.courses, kc.2.id = kc.1

/-- Every registration record is stored under its own id. -/
def RegIdInv (st : AppState) : Prop := ∀ kr ∈ st.registrations, kr.2.id = kr.1

/-- Structural well-formedness every reachable state enjoys: unique store
keys, records keyed by their own ids, and referential integrity. -/
def BasicWF (st : AppState) : Prop :=
  KeysUnique st.courses ∧ KeysUnique st.registrations ∧
  CourseIdInv st ∧ RegIdInv st ∧ RefIntegrity st

/-- Status of the registration returned by a workflow call, when it
succeeded. -/
def regStatusOf : Except ApiError (RegistrationRead × AppState) → Option String
  | Except.ok (rr, _) => some rr.status
  | Except.error _ => none

/-- Enrollment of the course stored under `cid`, when present. -/
def courseEnrollmentAt (st : AppState) (cid : Nat) : Option Int :=
  (lookup st.courses cid).map CourseRead.enrollment

/-- Scenario combinator for the spec's §8 property: create one
registration per id in `ids`, all for the same person and course,
collecting the returned registrations; a failing creation stops the
sequence. -/
def createMany (st : AppState) (pid cid : Nat) (ids : List Nat) (now : Nat) :
    List RegistrationRead × AppState :=
  match ids with
  | [] => ([], st)
  | fid :: rest =>
    match create_registration st ⟨pid, cid⟩ fid now with
    | Except.error _ => ([], st)
    | Except.ok (rr, st') =>
      (rr :: (createMany st' pid cid rest now).1, (createMany st' pid cid rest now).2)

theorem lookup_setKey_self {α : Type} (m : List (Nat × α)) (k : Nat) (v : α) :
    lookup (setKey m k v) k = some v := by
  induction m with
  | nil => simp [setKey, lookup]
  | cons hd tl ih =>
    obtain ⟨k', v'⟩ := hd
    by_cases h : k' = k
    · simp [setKey, lookup, h]
    · simp [setKey, lookup, h, ih]

theorem lookup_setKey_ne {α : Type} (m : List (Nat × α)) (k q : Nat) (v : α)
    (h : q ≠ k) : lookup (setKey m k v) q = lookup m q := by
  have hkq : ¬ k = q := Ne.symm h
  induction m with
  | nil => simp [setKey, lookup, hkq]
  | cons hd tl ih =>
    obtain ⟨k', v'⟩ := hd
    by_cases hk : k' = k
    · subst hk
      simp [setKey, lookup, hkq]
    · by_cases hq : k' = q
      · simp [setKey, lookup, hk, hq, h]
      · simp [setKey, lookup, hk, hq, ih]

theorem setKey_lookup_eq {α : Type} (m : List (Nat × α)) (k : Nat) (v : α)
    (h : lookup m k = some v) : setKey m k v = m := by
  induction m with
  | nil => simp [lookup] at h
  | cons hd tl ih =>
    obtain ⟨k', v'⟩ := hd
    by_cases hk : k' = k
    · subst hk
      simp [lookup] at h
      simp [setKey, h]
    · simp [lookup, hk] at h
      simp [setKey, hk, ih h]

theorem setKey_setKey_same {α : Type} (m : List (Nat × α)) (k : Nat) (v v' : α) :
    setKey (setKey m k v) k v' = setKey m k v' := by
  induction m with
  | nil => simp [setKey]
  | cons hd tl ih =>
    obtain ⟨k', v₀⟩ := hd
    by_cases hk : k' = k
    · simp [setKey, hk]
    · simp [setKey, hk, ih]

theorem lookup_eq_none_iff {α : Type} (m : List (Nat × α)) (k : Nat) :
    lookup m k = none ↔ k ∉ m.map Prod.fst := by
  induction m with
  | nil => simp [lookup]
  | cons hd tl ih =>
    obtain ⟨k', v'⟩ := hd
    by_cases hk : k' = k
    · subst hk
      simp [lookup]
    · simp [lookup, hk, ih, Ne.symm hk]

theorem keys_setKey_present {α : Type} (m : List (Nat × α)) (k : Nat) (v : α)
    (h : (lookup m k).isSome = true) :
    (setKey m k v).map Prod.fst = m.map Prod.fst := by
  induction m with
  | nil => simp [lookup] at h
  | cons hd tl ih =>
    obtain ⟨k', v'⟩ := hd
    by_cases hk : k' = k
    · subst hk
      simp [setKey]
    · simp [lookup, hk] at h
      simp [setKey, hk, ih h]

theorem keys_setKey_absent {α : Type} (m : List (Nat × α)) (k : Nat) (v : α)
    (h : lookup m k = none) :
    (setKey m k v).map Prod.fst = m.map Prod.fst ++ [k] := by
  induction m with
  | nil => simp [setKey]
  | cons hd tl ih =>
    obtain ⟨k', v'⟩ := hd
    by_cases hk : k' = k
    · simp [lookup, hk] at h
    · simp [lookup, hk] at h
      simp [setKey, hk, ih h]

theorem keysUnique_setKey {α : Type} (m : List (Nat × α)) (k : Nat) (v : α)
    (h : KeysUnique m) : KeysUnique (setKey m k v) := by
  rcases ho : lookup m k with _ | v₀
  · rw [KeysUnique, keys_setKey_absent m k v ho]
    have hk : k ∉ m.map Prod.fst := (lookup_eq_none_iff m k).mp ho
    rw [List.nodup_append]
    refine ⟨h, by simp, ?_⟩
    intro a ha hb
    simp at hb
    subst hb
    exact hk ha
  · have hs : (lookup m k).isSome = true := by rw [ho]; rfl
    rw [KeysUnique, keys_setKey_present m k v hs]
    exact h

theorem mem_setKey {α : Type} (m : List (Nat × α)) (k : Nat) (v : α) (e : Nat × α)
    (h : e ∈ setKey m k v) : e = (k, v) ∨ e ∈ m := by
  induction m with
  | nil => simpa [setKey] using h
  | cons hd tl ih =>
    obtain ⟨k', v'⟩ := hd
    by_cases hk : k' = k
    · simp [setKey, hk] at h
      rcases h with h | h
      · exact Or.inl h
      · exact Or.inr (by simp [h])
    · simp [setKey, hk] at h
      rcases h with h | h
      · exact Or.inr (by simp [h])
      · rcases ih h with h' | h'
        · exact Or.inl h'
        · exact Or.inr (by simp [h'])

theorem lookup_isSome_setKey {α : Type} (m : List (Nat × α)) (k q : Nat) (v : α)
    (h : (lookup m q).isSome = true) : (lookup (setKey m k v) q).isSome = true := by
  by_cases hq : q = k
  · subst hq
    simp [lookup_setKey_self]
  · rw [lookup_setKey_ne m k q v hq]
    exact h

theorem lookup_mem {α : Type} (m : List (Nat × α)) (k : Nat) (v : α)
    (h : lookup m k = some v) : (k, v) ∈ m := by
  induction m with
  | nil => simp [lookup] at h
  | cons hd tl ih =>
    obtain ⟨k', v'⟩ := hd
    by_cases hk : k' = k
    · subst hk
      simp [lookup] at h
      simp [h]
    · simp [lookup, hk] at h
      simp [ih h]

theorem lookup_of_mem_nodup {α : Type} (m : List (Nat × α)) (k : Nat) (v : α)
    (hu : KeysUnique m) (h : (k, v) ∈ m) : lookup m k = some v := by
  induction m with
  | nil => simp at h
  | cons hd tl ih =>
    obtain ⟨k', v'⟩ := hd
    rw [KeysUnique, List.map_cons, List.nodup_cons] at hu
    rcases List.mem_cons.mp h with heq | htl
    · have h1 : k' = k := (congrArg Prod.fst heq).symm
      have h2 : v' = v := (congrArg Prod.snd heq).symm
      simp [lookup, h1, h2]
    · have hk : ¬ k' = k := by
        intro hkk
        subst hkk
        exact hu.1 (List.mem_map.mpr ⟨(k', v), htl, rfl⟩)
      simp [lookup, hk]
      exact ih hu.2 htl

theorem enrolledCount_setKey_present (m : List (Nat × RegistrationRead)) (k : Nat)
    (v v' : RegistrationRead) (cid : Nat) (h : lookup m k = some v) :
    enrolledCount (setKey m k v') cid + contrib cid v
      = enrolledCount m cid + contrib cid v' := by
  induction m with
  | nil => simp [lookup] at h
  | cons hd tl ih =>
    obtain ⟨k', v₀⟩ := hd
    by_cases hk : k' = k
    · subst hk
      simp [lookup] at h
      subst h
      simp [setKey, enrolledCount]
      omega
    · simp [lookup, hk] at h
      have := ih h
      simp [setKey, hk, enrolledCount] at this ⊢
      omega

theorem enrolledCount_setKey_absent (m : List (Nat × RegistrationRead)) (k : Nat)
    (v' : RegistrationRead) (cid : Nat) (h : lookup m k = none) :
    enrolledCount (setKey m k v') cid = enrolledCount m cid + contrib cid v' := by
  induction m with
  | nil => simp [setKey, enrolledCount]
  | cons hd tl ih =>
    obtain ⟨k', v₀⟩ := hd
    by_cases hk : k' = k
    · simp [lookup, hk] at h
    · simp [lookup, hk] at h
      have := ih h
      simp [setKey, hk, enrolledCount] at this ⊢
      omega

theorem enrolledCount_eq_zero (regs : List (Nat × RegistrationRead)) (cid : Nat)
    (h : ∀ kr ∈ regs, kr.2.course_id ≠ cid) : enrolledCount regs cid = 0 := by
  induction regs with
  | nil => simp [enrolledCount]
  | cons hd tl ih =>
    have hhd := h hd (by simp)
    have htl := ih (fun kr hk => h kr (by simp [hk]))
    simp [enrolledCount, contrib, hhd] at htl ⊢
    exact htl

theorem enrolledCount_pos (regs : List (Nat × RegistrationRead)) (k cid : Nat)
    (r : RegistrationRead) (hmem : (k, r) ∈ regs) (hc : r.course_id = cid)
    (hs : r.status = "enrolled") : 1 ≤ enrolledCount regs cid := by
  induction regs with
  | nil => simp at hmem
  | cons hd tl ih =>
    rcases List.mem_cons.mp hmem with h | h
    · simp [enrolledCount, ← h, contrib, hc, hs]
    · have := ih h
      simp [enrolledCount] at this ⊢
      omega

theorem findWaitlisted_mem (regs : List (Nat × RegistrationRead)) (cid k : Nat)
    (w : RegistrationRead) (h : findWaitlisted regs cid = some (k, w)) :
    (k, w) ∈ regs ∧ w.course_id = cid ∧ w.status = "waitlisted" := by
  induction regs with
  | nil => simp [findWaitlisted] at h
  | cons hd tl ih =>
    obtain ⟨k', r⟩ := hd
    by_cases hc : r.course_id = cid ∧ r.status = "waitlisted"
    · simp [findWaitlisted, hc] at h
      obtain ⟨h1, h2⟩ := h
      subst h1
      subst h2
      exact ⟨by simp, hc⟩
    · simp [findWaitlisted, hc] at h
      obtain ⟨h1, h2, h3⟩ := ih h
      exact ⟨by simp [h1], h2, h3⟩

theorem basicWF_persons_setKey (st : AppState) (k : Nat) (v : PersonRead)
    (h : BasicWF st) : BasicWF { st with persons := setKey st.persons k v } := by
  obtain ⟨h1, h2, h3, h4, h5⟩ := h
  refine ⟨h1, h2, h3, h4, ?_⟩
  intro kr hkr
  obtain ⟨hp, hc⟩ := h5 kr hkr
  exact ⟨lookup_isSome_setKey _ _ _ _ hp, hc⟩

theorem basicWF_courses_setKey (st : AppState) (k : Nat) (v : CourseRead)
    (hid : v.id = k) (h : BasicWF st) :
    BasicWF { st with courses := setKey st.courses k v } := by
  obtain ⟨h1, h2, h3, h4, h5⟩ := h
  refine ⟨keysUnique_setKey _ _ _ h1, h2, ?_, h4, ?_⟩
  · intro kc hkc
    rcases mem_setKey _ _ _ _ hkc with he | he
    · rw [he]
      exact hid
    · exact h3 kc he
  · intro kr hkr
    obtain ⟨hp, hc⟩ := h5 kr hkr
    exact ⟨hp, lookup_isSome_setKey _ _ _ _ hc⟩

theorem basicWF_regs_setKey (st : AppState) (k : Nat) (v : RegistrationRead)
    (hid : v.id = k)
    (hp : (lookup st.persons v.person_id).isSome = true)
    (hc : (lookup st.courses v.course_id).isSome = true)
    (h : BasicWF st) :
    BasicWF { st with registrations := setKey st.registrations k v } := by
  obtain ⟨h1, h2, h3, h4, h5⟩ := h
  refine ⟨h1, keysUnique_setKey _ _ _ h2, h3, ?_, ?_⟩
  · intro kr hkr
    rcases mem_setKey _ _ _ _ hkr with he | he
    · rw [he]
      exact hid
    · exact h4 kr he
  · intro kr hkr
    rcases mem_setKey _ _ _ _ hkr with he | he
    · rw [he]
      exact ⟨hp, hc⟩
    · exact h5 kr he

theorem basicWF_courses_regs_setKey (st : AppState) (ck : Nat) (cv : CourseRead)
    (rk : Nat) (rv : RegistrationRead) (hcid : cv.id = ck) (hrid : rv.id = rk)
    (hp : (lookup st.persons rv.person_id).isSome = true)
    (hc : (lookup (setKey st.courses ck cv) rv.course_id).isSome = true)
    (h : BasicWF st) :
    BasicWF { st with courses := setKey st.courses ck cv,
                      registrations := setKey st.registrations rk rv } := by
  have h1 := basicWF_courses_setKey st ck cv hcid h
  exact basicWF_regs_setKey { st with courses := setKey st.courses ck cv } rk rv
    hrid hp hc h1

theorem basicWF_courses_regs2_setKey (st : AppState) (ck : Nat) (cv : CourseRead)
    (rk1 : Nat) (rv1 : RegistrationRead) (rk2 : Nat) (rv2 : RegistrationRead)
    (hcid : cv.id = ck) (hrid1 : rv1.id = rk1) (hrid2 : rv2.id = rk2)
    (hp1 : (lookup st.persons rv1.person_id).isSome = true)
    (hc1 : (lookup (setKey st.courses ck cv) rv1.course_id).isSome = true)
    (hp2 : (lookup st.persons rv2.person_id).isSome = true)
    (hc2 : (lookup (setKey st.courses ck cv) rv2.course_id).isSome = true)
    (h : BasicWF st) :
    BasicWF { st with courses := setKey st.courses ck cv,
                      registrations := setKey (setKey st.registrations rk1 rv1) rk2 rv2 } := by
  have h1 := basicWF_courses_regs_setKey st ck cv rk1 rv1 hcid hrid1 hp1 hc1 h
  exact basicWF_regs_setKey
    { st with courses := setKey st.courses ck cv,
              registrations := setKey st.registrations rk1 rv1 } rk2 rv2
    hrid2 hp2 hc2 h1

theorem basicWF_applyOp (st : AppState) (op : Op) (h : BasicWF st) :
    BasicWF (applyOp st op) := by
  cases op with
  | createPerson p fid =>
    rw [applyOp]
    exact basicWF_persons_setKey st fid _ h
  | updatePerson pid u =>
    rw [applyOp]
    rcases hl : lookup st.persons pid with _ | stored
    · simp [update_person, hl]
      exact h
    · simp [update_person, hl]
      exact basicWF_persons_setKey st pid _ h
  | createAddress a =>
    rw [applyOp]
    by_cases hs : (lookup st.addresses a.id).isSome = true
    · simp [create_address, hs]
      exact h
    · simp [create_address, hs]
      exact h
  | updateAddress aid u =>
    rw [applyOp]
    rcases hl : lookup st.addresses aid with _ | stored
    · simp [update_address, hl]
      exact h
    · simp [update_address, hl]
      exact h
  | createCourse c fid now =>
    rw [applyOp]
    exact basicWF_courses_setKey st fid _ rfl h
  | updateCourse cid u now =>
    rw [applyOp]
    rcases hl : lookup st.courses cid with _ | stored
    · simp [update_course, hl]
      exact h
    · simp [update_course, hl]
      exact basicWF_courses_setKey st cid _
        (h.2.2.1 (cid, stored) (lookup_mem _ _ _ hl)) h
  | createRegistration r fid now =>
    rw [applyOp]
    rcases hp : lookup st.persons r.person_id with _ | pers
    · simp [create_registration, hp]
      exact h
    · rcases hc : lookup st.courses r.course_id with _ | course
      · simp [create_registration, hp, hc]
        exact h
      · have hcid : course.id = r.course_id :=
          h.2.2.1 (r.course_id, course) (lookup_mem _ _ _ hc)
        by_cases hcap : course.enrollment < course.capacity
        · simp [create_registration, hp, hc, hcap, hcid, setKey_setKey_same]
          exact basicWF_courses_regs_setKey st r.course_id _ fid _ rfl rfl
            (by simp [hp]) (by simp [lookup_setKey_self]) h
        · simp [create_registration, hp, hc, hcap, hcid,
            setKey_lookup_eq st.courses r.course_id course hc]
          exact basicWF_regs_setKey st fid _ rfl (by simp [hp]) (by simp [hc]) h
  | updateRegistration rid u =>
    rw [applyOp]
    rcases hl : lookup st.registrations rid with _ | stored
    · simp [update_registration, hl]
      exact h
    · have hrid : stored.id = rid := h.2.2.2.1 (rid, stored) (lookup_mem _ _ _ hl)
      obtain ⟨hpstored, hcstored⟩ := h.2.2.2.2 (rid, stored) (lookup_mem _ _ _ hl)
      rcases hu : u.status with _ | s
      · rcases hc : lookup st.courses stored.course_id with _ | course
        · simp [update_registration, hl, hu, hc]
          exact h
        · have hcid : course.id = stored.course_id :=
            h.2.2.1 (stored.course_id, course) (lookup_mem _ _ _ hc)
          have hcond : ¬ (stored.status = "enrolled" ∧ stored.status = "dropped") := by
            rintro ⟨a, b⟩
            rw [a] at b
            exact absurd b (by decide)
          simp [update_registration, hl, hu, hc, hcond, hcid,
            setKey_lookup_eq st.courses stored.course_id course hc]
          exact basicWF_regs_setKey st rid _ hrid hpstored hcstored h
      · rcases hc : lookup st.courses stored.course_id with _ | course
        · simp [update_registration, hl, hu, hc]
          exact h
        · have hcid : course.id = stored.course_id :=
            h.2.2.1 (stored.course_id, course) (lookup_mem _ _ _ hc)
          by_cases hcond : stored.status = "enrolled" ∧ s = "dropped"
          · rcases hw : findWaitlisted st.registrations stored.course_id with _ | kw
            · simp [update_registration, hl, hu, hc, hcond, hw, hcid, setKey_setKey_same]
              refine basicWF_courses_regs_setKey st stored.course_id _ rid _ ?_ hrid
                (by simp [hpstored]) (by simp [lookup_setKey_self]) h
              rfl
            · obtain ⟨k, w⟩ := kw
              obtain ⟨hwmem, hwcid, hwstat⟩ := findWaitlisted_mem _ _ _ _ hw
              have hwk : w.id = k := h.2.2.2.1 (k, w) hwmem
              obtain ⟨hwp, hwc⟩ := h.2.2.2.2 (k, w) hwmem
              simp [update_registration, hl, hu, hc, hcond, hw, hcid, hwk, setKey_setKey_same]
              refine basicWF_courses_regs2_setKey st stored.course_id _ k _ rid _
                ?_ ?_ hrid ?_ ?_ (by simp [hpstored])
                (by simp [lookup_setKey_self]) h
              · rfl
              · simp [hwk]
              · simp [hwp]
              · by_cases hq : w.course_id = stored.course_id
                · simp [hq, lookup_setKey_self]
                · rw [lookup_setKey_ne _ _ _ _ hq]
                  exact hwc
          · simp [update_registration, hl, hu, hc, hcond, hcid,
              setKey_lookup_eq st.courses stored.course_id course hc]
            exact basicWF_regs_setKey st rid _ hrid hpstored hcstored h

theorem mem_setKey_nodup {α : Type} (m : List (Nat × α)) (k : Nat) (v : α)
    (e : Nat × α) (hu : KeysUnique m) (h : e ∈ setKey m k v) :
    e = (k, v) ∨ (e ∈ m ∧ e.1 ≠ k) := by
  induction m with
  | nil =>
    simp [setKey] at h
    exact Or.inl h
  | cons hd tl ih =>
    obtain ⟨k', v'⟩ := hd
    rw [KeysUnique, List.map_cons, List.nodup_cons] at hu
    by_cases hk : k' = k
    · subst hk
      simp [setKey] at h
      rcases h with h | h
      · exact Or.inl h
      · refine Or.inr ⟨List.mem_cons_of_mem _ h, fun he => ?_⟩
        exact hu.1 (he ▸ List.mem_map.mpr ⟨e, h, rfl⟩)
    · simp [setKey, hk] at h
      rcases h with h | h
      · exact Or.inr ⟨by simp [h], by simp [h, hk]⟩
      · rcases ih hu.2 h with h' | ⟨h1, h2⟩
        · exact Or.inl h'
        · exact Or.inr ⟨List.mem_cons_of_mem _ h1, h2⟩

theorem basicWF_initialState : BasicWF initialState := by
  refine ⟨?_, ?_, ?_, ?_, ?_⟩ <;>
    simp [initialState, KeysUnique, CourseIdInv, RegIdInv, RefIntegrity]

theorem basicWF_runOps (ops : List Op) (st : AppState) (h : BasicWF st) :
    BasicWF (runOps ops st) := by
  induction ops generalizing st with
  | nil => exact h
  | cons op rest ih =>
    rw [runOps, List.foldl_cons]
    exact ih (applyOp st op) (basicWF_applyOp st op h)

theorem reachable_basicWF (st : AppState) (h : Reachable st) : BasicWF st := by
  obtain ⟨ops, hops⟩ := h
  rw [← hops]
  exact basicWF_runOps ops initialState basicWF_initialState

theorem enrolledCount_setKey_absent' (m : List (Nat × RegistrationRead)) (k : Nat)
    (h : lookup m k = none) (v' : RegistrationRead) (cid : Nat) :
    enrolledCount (setKey m k v') cid = enrolledCount m cid + contrib cid v' :=
  enrolledCount_setKey_absent m k v' cid h

/-- Request sequences under which the ledger invariant is maintained:
courses are created with `enrollment = 0` under fresh ids, course patches
never supply `enrollment`, registrations are created under fresh ids, and
registration updates either omit `status` or set it to `"dropped"` (the
only status transition the workflow accounts for). -/
inductive GoodReach : AppState → Prop where
  | init : GoodReach initialState
  | createPerson (st : AppState) (p : PersonCreate) (fid : Nat) :
      GoodReach st → GoodReach (applyOp st (Op.createPerson p fid))
  | updatePerson (st : AppState) (pid : Nat) (u : PersonUpdate) :
      GoodReach st → GoodReach (applyOp st (Op.updatePerson pid u))
  | createAddress (st : AppState) (a : AddressCreate) :
      GoodReach st → GoodReach (applyOp st (Op.createAddress a))
  | updateAddress (st : AppState) (aid : Nat) (u : AddressUpdate) :
      GoodReach st → GoodReach (applyOp st (Op.updateAddress aid u))
  | createCourse (st : AppState) (c : CourseCreate) (fid now : Nat) :
      GoodReach st → c.enrollment = 0 → lookup st.courses fid = none →
      GoodReach (applyOp st (Op.createCourse c fid now))
  | updateCourse (st : AppState) (cid : Nat) (u : CourseUpdate) (now : Nat) :
      GoodReach st → u.enrollment = none →
      GoodReach (applyOp st (Op.updateCourse cid u now))
  | createRegistration (st : AppState) (r : RegistrationCreate) (fid now : Nat) :
      GoodReach st → lookup st.registrations fid = none →
      GoodReach (applyOp st (Op.createRegistration r fid now))
  | updateRegistration (st : AppState) (rid : Nat) (u : RegistrationUpdate) :
      GoodReach st → (u.status = none ∨ u.status = some "dropped") →
      GoodReach (applyOp st (Op.updateRegistration rid u))

theorem ledger_createPerson (st : AppState) (p : PersonCreate) (fid : Nat)
    (h : LedgerInvariant st) : LedgerInvariant (applyOp st (Op.createPerson p fid)) := by
  rw [applyOp]
  exact h

theorem ledger_updatePerson (st : AppState) (pid : Nat) (u : PersonUpdate)
    (h : LedgerInvariant st) : LedgerInvariant (applyOp st (Op.updatePerson pid u)) := by
  rw [applyOp]
  rcases hl : lookup st.persons pid with _ | stored
  · simp [update_person, hl]
    exact h
  · simp [update_person, hl]
    exact h

theorem ledger_createAddress (st : AppState) (a : AddressCreate)
    (h : LedgerInvariant st) : LedgerInvariant (applyOp st (Op.createAddress a)) := by
  rw [applyOp]
  by_cases hs : (lookup st.addresses a.id).isSome = true
  · simp [create_address, hs]
    exact h
  · simp [create_address, hs]
    exact h

theorem ledger_updateAddress (st : AppState) (aid : Nat) (u : AddressUpdate)
    (h : LedgerInvariant st) : LedgerInvariant (applyOp st (Op.updateAddress aid u)) := by
  rw [applyOp]
  rcases hl : lookup st.addresses aid with _ | stored
  · simp [update_address, hl]
    exact h
  · simp [update_address, hl]
    exact h

theorem ledger_createCourse (st : AppState) (c : CourseCreate) (fid now : Nat)
    (henr : c.enrollment = 0) (hfresh : lookup st.courses fid = none)
    (hwf : BasicWF st) (h : LedgerInvariant st) :
    LedgerInvariant (applyOp st (Op.createCourse c fid now)) := by
  rw [applyOp]
  intro kc hkc
  rcases mem_setKey _ _ _ _ hkc with he | he
  · rw [he]
    have hz : enrolledCount st.registrations fid = 0 := by
      apply enrolledCount_eq_zero
      intro kr hkr hcid2
      obtain ⟨hp2, hc2⟩ := hwf.2.2.2.2 kr hkr
      rw [hcid2, hfresh] at hc2
      simp at hc2
    show c.enrollment = (enrolledCount st.registrations fid : Int)
    rw [henr, hz]
    simp
  · exact h kc he

theorem ledger_updateCourse (st : AppState) (cid : Nat) (u : CourseUpdate) (now : Nat)
    (henr : u.enrollment = none) (h : LedgerInvariant st) :
    LedgerInvariant (applyOp st (Op.updateCourse cid u now)) := by
  rw [applyOp]
  rcases hl : lookup st.courses cid with _ | stored
  · simp [update_course, hl]
    exact h
  · simp [update_course, hl, henr]
    intro kc hkc
    rcases mem_setKey _ _ _ _ hkc with he | he
    · rw [he]
      show stored.enrollment = (enrolledCount st.registrations cid : Int)
      exact h (cid, stored) (lookup_mem _ _ _ hl)
    · exact h kc he

theorem ledger_createRegistration (st : AppState) (r : RegistrationCreate) (fid now : Nat)
    (hfresh : lookup st.registrations fid = none)
    (hwf : BasicWF st) (h : LedgerInvariant st) :
    LedgerInvariant (applyOp st (Op.createRegistration r fid now)) := by
  rw [applyOp]
  rcases hp : lookup st.persons r.person_id with _ | pers
  · simp [create_registration, hp]
    exact h
  · rcases hc : lookup st.courses r.course_id with _ | course
    · simp [create_registration, hp, hc]
      exact h
    · have hcid : course.id = r.course_id := hwf.2.2.1 _ (lookup_mem _ _ _ hc)
      by_cases hcap : course.enrollment < course.capacity
      · simp [create_registration, hp, hc, hcap, hcid, setKey_setKey_same]
        intro kc hkc
        rcases mem_setKey_nodup _ _ _ _ hwf.1 hkc with he | ⟨he, hne⟩
        · rw [he]
          have h0 : course.enrollment = (enrolledCount st.registrations r.course_id : Int) :=
            h (r.course_id, course) (lookup_mem _ _ _ hc)
          simp [enrolledCount_setKey_absent' st.registrations fid hfresh, contrib]
          omega
        · have h0 := h kc he
          simp [enrolledCount_setKey_absent' st.registrations fid hfresh, contrib,
            Ne.symm hne]
          omega
      · simp [create_registration, hp, hc, hcap, hcid,
          setKey_lookup_eq st.courses r.course_id course hc]
        intro kc hkc
        have h0 := h kc hkc
        simp [enrolledCount_setKey_absent' st.registrations fid hfresh, contrib]
        omega

theorem ledger_updateRegistration (st : AppState) (rid : Nat) (u : RegistrationUpdate)
    (hgood : u.status = none ∨ u.status = some "dropped")
    (hwf : BasicWF st) (h : LedgerInvariant st) :
    LedgerInvariant (applyOp st (Op.updateRegistration rid u)) := by
  rw [applyOp]
  rcases hl : lookup st.registrations rid with _ | stored
  · simp [update_registration, hl]
    exact h
  · rcases hgood with hu | hu
    · rcases hc : lookup st.courses stored.course_id with _ | course
      · simp [update_registration, hl, hu, hc]
        exact h
      · have hcid : course.id = stored.course_id := hwf.2.2.1 _ (lookup_mem _ _ _ hc)
        have hcond : ¬ (stored.status = "enrolled" ∧ stored.status = "dropped") := by
          rintro ⟨a, b⟩
          rw [a] at b
          exact absurd b (by decide)
        simp [update_registration, hl, hu, hc, hcond, hcid,
          setKey_lookup_eq st.courses stored.course_id course hc,
          setKey_lookup_eq st.registrations rid stored hl]
        exact h
    · rcases hc : lookup st.courses stored.course_id with _ | course
      · simp [update_registration, hl, hu, hc]
        exact h
      · have hcid : course.id = stored.course_id := hwf.2.2.1 _ (lookup_mem _ _ _ hc)
        by_cases hst : stored.status = "enrolled"
        · rcases hw : findWaitlisted st.registrations stored.course_id with _ | kw
          · -- enrolled → dropped, nobody waitlisted: seat freed
            simp [update_registration, hl, hu, hc, hst, hw, hcid, setKey_setKey_same]
            intro kc hkc
            rcases mem_setKey_nodup _ _ _ _ hwf.1 hkc with he | ⟨he, hne⟩
            · rw [he]
              have h0 : course.enrollment
                  = (enrolledCount st.registrations stored.course_id : Int) :=
                h (stored.course_id, course) (lookup_mem _ _ _ hc)
              have h1 := enrolledCount_setKey_present st.registrations rid stored
                { stored with status := "dropped" } stored.course_id hl
              simp [contrib, hst] at h1 ⊢
              omega
            · have h0 := h kc he
              have h1 := enrolledCount_setKey_present st.registrations rid stored
                { stored with status := "dropped" } kc.1 hl
              simp [contrib, Ne.symm hne] at h1 ⊢
              omega
          · -- enrolled → dropped with promotion: seat freed then refilled
            obtain ⟨k, w⟩ := kw
            obtain ⟨hwmem, hwcid, hwstat⟩ := findWaitlisted_mem _ _ _ _ hw
            have hwk : w.id = k := hwf.2.2.2.1 (k, w) hwmem
            have hlk : lookup st.registrations k = some w :=
              lookup_of_mem_nodup _ _ _ hwf.2.1 hwmem
            have hrk : rid ≠ k := by
              intro hkeq
              rw [hkeq] at hl
              rw [hlk] at hl
              have hws : stored = w := by
                injection hl with hh
                exact hh.symm
              rw [hws, hwstat] at hst
              exact absurd hst (by decide)
            have hlk2 : lookup (setKey st.registrations k { w with status := "enrolled" })
                rid = some stored := by
              rw [lookup_setKey_ne _ _ _ _ hrk]
              exact hl
            simp [update_registration, hl, hu, hc, hst, hw, hcid, hwk, setKey_setKey_same]
            intro kc hkc
            rcases mem_setKey_nodup _ _ _ _ hwf.1 hkc with he | ⟨he, hne⟩
            · rw [he]
              have h0 : course.enrollment
                  = (enrolledCount st.registrations stored.course_id : Int) :=
                h (stored.course_id, course) (lookup_mem _ _ _ hc)
              have h1 := enrolledCount_setKey_present st.registrations k w
                { w with status := "enrolled" } stored.course_id hlk
              have h2 := enrolledCount_setKey_present
                (setKey st.registrations k { w with status := "enrolled" }) rid stored
                { stored with status := "dropped" } stored.course_id hlk2
              simp [contrib, hwcid, hwstat, hwk, hst] at h1 h2 ⊢
              omega
            · have h0 := h kc he
              have hwne : w.course_id ≠ kc.1 := by
                rw [hwcid]
                exact Ne.symm hne
              have hsne : stored.course_id ≠ kc.1 := Ne.symm hne
              have h1 := enrolledCount_setKey_present st.registrations k w
                { w with status := "enrolled" } kc.1 hlk
              have h2 := enrolledCount_setKey_present
                (setKey st.registrations k { w with status := "enrolled" }) rid stored
                { stored with status := "dropped" } kc.1 hlk2
              simp [contrib, hwne, hsne, hwk, hwstat] at h1 h2 ⊢
              omega
        · -- any other source status: no ledger effect
          simp [update_registration, hl, hu, hc, hst, hcid,
            setKey_lookup_eq st.courses stored.course_id course hc]
          intro kc hkc
          have h0 := h kc hkc
          have h1 := enrolledCount_setKey_present st.registrations rid stored
            { stored with status := "dropped" } kc.1 hl
          simp [contrib, hst] at h1 ⊢
          omega

theorem goodReach_ledger (st : AppState) (h : GoodReach st) :
    BasicWF st ∧ LedgerInvariant st := by
  induction h with
  | init =>
    refine ⟨basicWF_initialState, ?_⟩
    intro kc hkc
    simp [initialState] at hkc
  | createPerson st p fid hg ih =>
    exact ⟨basicWF_applyOp _ _ ih.1, ledger_createPerson _ _ _ ih.2⟩
  | updatePerson st pid u hg ih =>
    exact ⟨basicWF_applyOp _ _ ih.1, ledger_updatePerson _ _ _ ih.2⟩
  | createAddress st a hg ih =>
    exact ⟨basicWF_applyOp _ _ ih.1, ledger_createAddress _ _ ih.2⟩
  | updateAddress st aid u hg ih =>
    exact ⟨basicWF_applyOp _ _ ih.1, ledger_updateAddress _ _ _ ih.2⟩
  | createCourse st c fid now hg henr hfresh ih =>
    exact ⟨basicWF_applyOp _ _ ih.1, ledger_createCourse _ _ _ _ henr hfresh ih.1 ih.2⟩
  | updateCourse st cid u now hg henr ih =>
    exact ⟨basicWF_applyOp _ _ ih.1, ledger_updateCourse _ _ _ _ henr ih.2⟩
  | createRegistration st r fid now hg hfresh ih =>
    exact ⟨basicWF_applyOp _ _ ih.1, ledger_createRegistration _ _ _ _ hfresh ih.1 ih.2⟩
  | updateRegistration st rid u hg hgood ih =>
    exact ⟨basicWF_applyOp _ _ ih.1, ledger_updateRegistration _ _ _ hgood ih.1 ih.2⟩

/-- C6: for every state and every create-registration request whose
person_id has no Person record or whose course_id has no Course record,
`create_registration` fails with NotFound (404) and the entire state is
unchanged — no registration is added and no course's enrollment is
modified. -/
theorem C6_create_registration_not_found (st : AppState) (r : RegistrationCreate)
    (fid now : Nat)
    (h : lookup st.persons r.person_id = none ∨ lookup st.courses r.course_id = none) :
    (∃ d, create_registration st r fid now = Except.error (ApiError.notFound d)) ∧
    applyOp st (Op.createRegistration r fid now) = st := by
  rcases hp : lookup st.persons r.person_id with _ | pers
  · refine ⟨⟨"Person not found", ?_⟩, ?_⟩
    · simp [create_registration, hp]
    · simp [applyOp, create_registration, hp]
  · rcases h with h | h
    · rw [hp] at h
      exact absurd h (by simp)
    · refine ⟨⟨"Course not found", ?_⟩, ?_⟩
      · simp [create_registration, hp, h]
      · simp [applyOp, create_registration, hp, h]

theorem C6_create_registration_not_found_witness :
    (lookup initialState.persons 0 = none ∨ lookup initialState.courses 0 = none) ∧
    ((∃ d, create_registration initialState ⟨0, 0⟩ 1 0
        = Except.error (ApiError.notFound d)) ∧
      applyOp initialState (Op.createRegistration ⟨0, 0⟩ 1 0) = initialState) :=
  ⟨Or.inl rfl, C6_create_registration_not_found initialState ⟨0, 0⟩ 1 0 (Or.inl rfl)⟩

/-- C10: for every state of the courses store and every integer supplied
for the enrollment query parameter, listing courses filtered by
enrollment returns the empty list: `str(p.enrollment)` is a Python `str`
and is never `==` to the `int` parameter. -/
theorem C10_list_courses_enrollment_filter_empty (st : AppState)
    (coursenumber instructor time location : Option String)
    (capacity : Option Int) (q : Int) :
    list_courses st coursenumber instructor time location capacity (some q) = [] := by
  simp [list_courses, pyEq]

instance {α : Type} (m : List (Nat × α)) : Decidable (KeysUnique m) :=
  inferInstanceAs (Decidable ((m.map Prod.fst).Nodup))

instance (st : AppState) : Decidable (CourseIdInv st) :=
  inferInstanceAs (Decidable (∀ kc ∈ st.courses, kc.2.id = kc.1))

instance (st : AppState) : Decidable (RegIdInv st) :=
  inferInstanceAs (Decidable (∀ kr ∈ st.registrations, kr.2.id = kr.1))

instance (st : AppState) : Decidable (RefIntegrity st) :=
  inferInstanceAs (Decidable (∀ kr ∈ st.registrations,
    (lookup st.persons kr.2.person_id).isSome = true ∧
    (lookup st.courses kr.2.course_id).isSome = true))

instance (st : AppState) : Decidable (BasicWF st) :=
  inferInstanceAs (Decidable (KeysUnique st.courses ∧ KeysUnique st.registrations ∧
    CourseIdInv st ∧ RegIdInv st ∧ RefIntegrity st))

instance (st : AppState) : Decidable (LedgerInvariant st) :=
  inferInstanceAs (Decidable (∀ kc ∈ st.courses,
    kc.2.enrollment = (enrolledCount st.registrations kc.1 : Int)))

instance (st : AppState) : Decidable (CapBound st) :=
  inferInstanceAs (Decidable (∀ kc ∈ st.courses, kc.2.enrollment ≤ kc.2.capacity))

instance (st : AppState) : Decidable (EnrollNonneg st) :=
  inferInstanceAs (Decidable (∀ kc ∈ st.courses, (0 : Int) ≤ kc.2.enrollment))

/-- A small populated state used to exercise the workflow theorems: one
person, one course with capacity 2 and one taken seat, one enrolled and
one waitlisted registration for it. -/
def sampleState : AppState :=
  { persons := [(1, ⟨1, "alice"⟩)],
    addresses := [],
    courses := [(10, ⟨10, "COMS4153", "Ferguson", "Fri", "NWC", 2, 1, 0, 0⟩)],
    registrations := [(20, ⟨20, 1, 10, "enrolled", 0, 0⟩),
                      (21, ⟨21, 1, 10, "waitlisted", 0, 0⟩)] }

/-- C5: a registration status update whose (old, new) status pair is not
("enrolled", "dropped") succeeds, leaves the whole courses store (hence
every course's enrollment) unchanged, and changes no registration other
than the one addressed. -/
theorem C5_no_ledger_side_effect (st : AppState) (rid : Nat) (u : RegistrationUpdate)
    (R : RegistrationRead) (hwf : BasicWF st)
    (hR : lookup st.registrations rid = some R)
    (hns : ¬ (R.status = "enrolled" ∧ u.status.getD R.status = "dropped")) :
    ∃ R' st', update_registration st rid u = Except.ok (R', st') ∧
      st'.courses = st.courses ∧
      st'.persons = st.persons ∧
      st'.addresses = st.addresses ∧
      lookup st'.registrations rid = some R' ∧
      (∀ q, q ≠ rid → lookup st'.registrations q = lookup st.registrations q) := by
  obtain ⟨hpR, hcR⟩ := hwf.2.2.2.2 (rid, R) (lookup_mem _ _ _ hR)
  rcases hu : u.status with _ | s
  · rcases hc : lookup st.courses R.course_id with _ | course
    · rw [hc] at hcR
      simp at hcR
    · have hcid : course.id = R.course_id := hwf.2.2.1 _ (lookup_mem _ _ _ hc)
      have hcond : ¬ (R.status = "enrolled" ∧ R.status = "dropped") := by
        rintro ⟨a, b⟩
        rw [a] at b
        exact absurd b (by decide)
      refine ⟨R, { st with courses := setKey st.courses course.id course, registrations := setKey st.registrations rid R }, ?_, ?_, rfl, rfl, ?_, ?_⟩
      · simp [update_registration, hR, hu, hc, hcond]
      · show setKey st.courses course.id course = st.courses
        rw [hcid]
        exact setKey_lookup_eq st.courses R.course_id course hc
      · exact lookup_setKey_self _ _ _
      · intro q hq
        exact lookup_setKey_ne _ _ _ _ hq
  · rw [hu] at hns
    simp only [Option.getD_some] at hns
    rcases hc : lookup st.courses R.course_id with _ | course
    · rw [hc] at hcR
      simp at hcR
    · have hcid : course.id = R.course_id := hwf.2.2.1 _ (lookup_mem _ _ _ hc)
      refine ⟨{ R with status := s }, { st with courses := setKey st.courses course.id course, registrations := setKey st.registrations rid { R with status := s } }, ?_, ?_, rfl, rfl, ?_, ?_⟩
      · simp [update_registration, hR, hu, hc, hns]
      · show setKey st.courses course.id course = st.courses
        rw [hcid]
        exact setKey_lookup_eq st.courses R.course_id course hc
      · exact lookup_setKey_self _ _ _
      · intro q hq
        exact lookup_setKey_ne _ _ _ _ hq

theorem C5_no_ledger_side_effect_witness :
    BasicWF sampleState ∧
    lookup sampleState.registrations 21 = some ⟨21, 1, 10, "waitlisted", 0, 0⟩ ∧
    ¬ ((⟨21, 1, 10, "waitlisted", 0, 0⟩ : RegistrationRead).status = "enrolled" ∧
      (RegistrationUpdate.mk (some "dropped")).status.getD
        (⟨21, 1, 10, "waitlisted", 0, 0⟩ : RegistrationRead).status = "dropped") ∧
    (∃ R' st', update_registration sampleState 21 ⟨some "dropped"⟩
        = Except.ok (R', st') ∧
      st'.courses = sampleState.courses ∧
      st'.persons = sampleState.persons ∧
      st'.addresses = sampleState.addresses ∧
      lookup st'.registrations 21 = some R' ∧
      (∀ q, q ≠ 21 → lookup st'.registrations q = lookup sampleState.registrations q)) :=
  ⟨by decide, by decide, by decide,
    C5_no_ledger_side_effect sampleState 21 ⟨some "dropped"⟩ ⟨21, 1, 10, "waitlisted", 0, 0⟩
      (by decide) (by decide) (by decide)⟩

/-- Postcondition of dropping an enrolled registration `R` stored under
`rid`: the update returns the dropped record; if the code's scan finds a
waitlisted registration of the same course, exactly that one is set to
`"enrolled"`, every other registration is untouched and the course's
enrollment is unchanged; if the scan finds none, no registration other
than `R` changes and the course's enrollment drops by exactly 1. -/
def dropPostcondition (st : AppState) (rid : Nat) (R : RegistrationRead) : Prop :=
  ∃ st', update_registration st rid ⟨some "dropped"⟩
      = Except.ok ({ R with status := "dropped" }, st') ∧
    lookup st'.registrations rid = some { R with status := "dropped" } ∧
    (∀ k w, findWaitlisted st.registrations R.course_id = some (k, w) →
      w.status = "waitlisted" ∧ w.course_id = R.course_id ∧
      lookup st'.registrations k = some { w with status := "enrolled" } ∧
      (∀ q, q ≠ k → q ≠ rid →
        lookup st'.registrations q = lookup st.registrations q) ∧
      courseEnrollmentAt st' R.course_id = courseEnrollmentAt st R.course_id) ∧
    (findWaitlisted st.registrations R.course_id = none →
      (∀ q, q ≠ rid → lookup st'.registrations q = lookup st.registrations q) ∧
      (∃ c c', lookup st.courses R.course_id = some c ∧
        lookup st'.courses R.course_id = some c' ∧
        c'.enrollment = c.enrollment - 1))

/-- C4: for every stored registration with status "enrolled", updating
its status to "dropped" satisfies `dropPostcondition`: with a waitlisted
registration for the same course, exactly one is promoted and enrollment
is unchanged; with none, enrollment is decremented by exactly 1 and
nobody is promoted. -/
theorem C4_drop_enrolled (st : AppState) (rid : Nat) (R : RegistrationRead)
    (hwf : BasicWF st) (hR : lookup st.registrations rid = some R)
    (hst : R.status = "enrolled") : dropPostcondition st rid R := by
  obtain ⟨hpR, hcR⟩ := hwf.2.2.2.2 (rid, R) (lookup_mem _ _ _ hR)
  rcases hc : lookup st.courses R.course_id with _ | course
  · rw [hc] at hcR
    simp at hcR
  · have hcid : course.id = R.course_id := hwf.2.2.1 _ (lookup_mem _ _ _ hc)
    rcases hw : findWaitlisted st.registrations R.course_id with _ | kw
    · refine ⟨{ st with courses := setKey st.courses R.course_id { course with enrollment := course.enrollment - 1 }, registrations := setKey st.registrations rid { R with status := "dropped" } }, ?_, ?_, ?_, ?_⟩
      · simp [update_registration, hR, hc, hst, hcid, hw, setKey_setKey_same]
      · exact lookup_setKey_self _ _ _
      · intro k w hfind
        rw [hw] at hfind
        simp at hfind
      · intro _
        refine ⟨?_, course, { course with enrollment := course.enrollment - 1 }, hc, ?_, rfl⟩
        · intro q hq
          exact lookup_setKey_ne _ _ _ _ hq
        · exact lookup_setKey_self _ _ _
    · obtain ⟨k, w⟩ := kw
      obtain ⟨hwmem, hwcid, hwstat⟩ := findWaitlisted_mem _ _ _ _ hw
      have hwk : w.id = k := hwf.2.2.2.1 (k, w) hwmem
      have hlk : lookup st.registrations k = some w :=
        lookup_of_mem_nodup _ _ _ hwf.2.1 hwmem
      have hrk : rid ≠ k := by
        intro hkeq
        rw [hkeq] at hR
        rw [hlk] at hR
        injection hR with hh
        rw [← hh] at hst
        rw [hwstat] at hst
        exact absurd hst (by decide)
      refine ⟨{ st with courses := setKey st.courses R.course_id { course with enrollment := course.enrollment - 1 + 1 }, registrations := setKey (setKey st.registrations k { w with status := "enrolled" }) rid { R with status := "dropped" } }, ?_, ?_, ?_, ?_⟩
      · simp [update_registration, hR, hc, hst, hcid, hw, hwk, setKey_setKey_same]
      · exact lookup_setKey_self _ _ _
      · intro k' w' hfind
        rw [hw] at hfind
        have h1 : k' = k := (congrArg Prod.fst (Option.some.inj hfind)).symm
        have h2 : w' = w := (congrArg Prod.snd (Option.some.inj hfind)).symm
        subst h1
        subst h2
        refine ⟨hwstat, hwcid, ?_, ?_, ?_⟩
        · rw [lookup_setKey_ne _ _ _ _ (Ne.symm hrk)]
          exact lookup_setKey_self _ _ _
        · intro q hqk hqrid
          rw [lookup_setKey_ne _ _ _ _ hqrid]
          exact lookup_setKey_ne _ _ _ _ hqk
        · simp [courseEnrollmentAt, lookup_setKey_self, hc]
      · intro hnone
        rw [hw] at hnone
        simp at hnone

theorem C4_drop_enrolled_witness :
    BasicWF sampleState ∧
    lookup sampleState.registrations 20 = some ⟨20, 1, 10, "enrolled", 0, 0⟩ ∧
    (⟨20, 1, 10, "enrolled", 0, 0⟩ : RegistrationRead).status = "enrolled" ∧
    dropPostcondition sampleState 20 ⟨20, 1, 10, "enrolled", 0, 0⟩ :=
  ⟨by decide, by decide, by decide,
    C4_drop_enrolled sampleState 20 ⟨20, 1, 10, "enrolled", 0, 0⟩
      (by decide) (by decide) (by decide)⟩

/-- C9: in every reachable state, every stored registration references an
existing person and an existing course, and consequently the unguarded
course lookup in `update_registration` never raises a `KeyError`, for any
registration id and payload. -/
theorem C9_referential_integrity (st : AppState) (h : Reachable st) :
    RefIntegrity st ∧
    ∀ rid u, update_registration st rid u ≠ Except.error ApiError.keyError := by
  have hwf := reachable_basicWF st h
  refine ⟨hwf.2.2.2.2, ?_⟩
  intro rid u
  rcases hl : lookup st.registrations rid with _ | stored
  · simp [update_registration, hl]
  · obtain ⟨hp, hcR⟩ := hwf.2.2.2.2 (rid, stored) (lookup_mem _ _ _ hl)
    rcases hcs : lookup st.courses stored.course_id with _ | course
    · rw [hcs] at hcR
      simp at hcR
    · have hcid : course.id = stored.course_id := hwf.2.2.1 _ (lookup_mem _ _ _ hcs)
      rcases hu : u.status with _ | s
      · have hcond : ¬ (stored.status = "enrolled" ∧ stored.status = "dropped") := by
          rintro ⟨a, b⟩
          rw [a] at b
          exact absurd b (by decide)
        simp [update_registration, hl, hu, hcs, hcond]
      · by_cases hcond : stored.status = "enrolled" ∧ s = "dropped"
        · rcases hw : findWaitlisted st.registrations stored.course_id with _ | kw
          · simp [update_registration, hl, hu, hcs, hcond, hcid, hw]
          · obtain ⟨k, w⟩ := kw
            simp [update_registration, hl, hu, hcs, hcond, hcid, hw]
        · simp [update_registration, hl, hu, hcs, hcond]

theorem C9_referential_integrity_witness :
    Reachable initialState ∧
    (RefIntegrity initialState ∧
      ∀ rid u, update_registration initialState rid u ≠ Except.error ApiError.keyError) :=
  ⟨⟨[], rfl⟩, C9_referential_integrity initialState ⟨[], rfl⟩⟩

/-- C1 counterexample: the state reached by the single request
`POST /courses` with the payload of the model's own example
(`capacity = 160`, `enrollment = 143`) is reachable, yet its course's
enrollment (143) differs from the number of enrolled registrations (0):
course create/patch accept a client-supplied enrollment, so the ledger
invariant does not hold in every reachable state. -/
theorem C1_counterexample :
    Reachable (runOps [Op.createCourse
      ⟨"COMS4153", "Donald F Ferguson", "F 1:10pm-3:40pm", "501 NWC", 160, 143⟩ 10 0]
      initialState) ∧
    ¬ LedgerInvariant (runOps [Op.createCourse
      ⟨"COMS4153", "Donald F Ferguson", "F 1:10pm-3:40pm", "501 NWC", 160, 143⟩ 10 0]
      initialState) :=
  ⟨⟨_, rfl⟩, by decide⟩

/-- C1 amended: the ledger invariant — each course's enrollment equals
the number of stored registrations for that course with status
"enrolled" — holds in every state reachable when every course is created
with enrollment 0 under a fresh id, no course patch supplies an
enrollment value, registration ids are fresh, and registration status
updates only omit the status or set it to "dropped"; it is not preserved
by client-supplied course enrollments nor by status updates that set any
other status value. -/
theorem C1_amended_ledger_invariant (st : AppState) (h : GoodReach st) :
    LedgerInvariant st :=
  (goodReach_ledger st h).2

theorem C1_amended_ledger_invariant_witness :
    LedgerInvariant (applyOp (applyOp initialState (Op.createPerson ⟨"alice"⟩ 1))
      (Op.createCourse ⟨"COMS4153", "Ferguson", "Fri", "NWC", 2, 0⟩ 10 0)) :=
  C1_amended_ledger_invariant _
    (GoodReach.createCourse _ _ _ _
      (GoodReach.createPerson _ _ _ GoodReach.init) rfl rfl)

/-- C2 counterexample: from the empty state, create a person and a course
(capacity 1, enrollment 0), register (enrolled, enrollment 1), drop
(enrollment 0), set the dropped registration back to "enrolled" (a
transition with no ledger effect), then drop again: the second drop
decrements once more and the course's enrollment reaches -1, violating
`0 <= enrollment` in a state reachable through the registration workflow. -/
theorem C2_counterexample :
    Reachable (runOps [Op.createPerson ⟨"alice"⟩ 1,
      Op.createCourse ⟨"COMS4153", "Ferguson", "Fri", "NWC", 1, 0⟩ 10 0,
      Op.createRegistration ⟨1, 10⟩ 20 0,
      Op.updateRegistration 20 ⟨some "dropped"⟩,
      Op.updateRegistration 20 ⟨some "enrolled"⟩,
      Op.updateRegistration 20 ⟨some "dropped"⟩] initialState) ∧
    courseEnrollmentAt (runOps [Op.createPerson ⟨"alice"⟩ 1,
      Op.createCourse ⟨"COMS4153", "Ferguson", "Fri", "NWC", 1, 0⟩ 10 0,
      Op.createRegistration ⟨1, 10⟩ 20 0,
      Op.updateRegistration 20 ⟨some "dropped"⟩,
      Op.updateRegistration 20 ⟨some "enrolled"⟩,
      Op.updateRegistration 20 ⟨some "dropped"⟩] initialState) 10 = some (-1) ∧
    ¬ EnrollNonneg (runOps [Op.createPerson ⟨"alice"⟩ 1,
      Op.createCourse ⟨"COMS4153", "Ferguson", "Fri", "NWC", 1, 0⟩ 10 0,
      Op.createRegistration ⟨1, 10⟩ 20 0,
      Op.updateRegistration 20 ⟨some "dropped"⟩,
      Op.updateRegistration 20 ⟨some "enrolled"⟩,
      Op.updateRegistration 20 ⟨some "dropped"⟩] initialState) :=
  ⟨⟨_, rfl⟩, by decide, by decide⟩

/-- C2 amended: the bound `enrollment ≤ capacity` is preserved by both
registration workflow operations — creation only increments after the
`enrollment < capacity` check, and the drop path either decrements or
leaves the net enrollment unchanged — but `0 ≤ enrollment` is not an
invariant of the workflow (see the counterexample). -/
theorem C2_amended_capacity_bound (st : AppState) (hcb : CapBound st) :
    (∀ r fid now, CapBound (applyOp st (Op.createRegistration r fid now))) ∧
    (∀ rid u, CapBound (applyOp st (Op.updateRegistration rid u))) := by
  constructor
  · intro r fid now
    rw [applyOp]
    rcases hp : lookup st.persons r.person_id with _ | pers
    · simp [create_registration, hp]
      exact hcb
    · rcases hc : lookup st.courses r.course_id with _ | course
      · simp [create_registration, hp, hc]
        exact hcb
      · have hb : course.enrollment ≤ course.capacity :=
          hcb (r.course_id, course) (lookup_mem _ _ _ hc)
        by_cases hcap : course.enrollment < course.capacity
        · simp [create_registration, hp, hc, hcap]
          intro kc hkc
          rcases mem_setKey _ _ _ _ hkc with he | he
          · rw [he]
            simp
            omega
          · rcases mem_setKey _ _ _ _ he with he2 | he2
            · rw [he2]
              simp
              omega
            · exact hcb kc he2
        · simp [create_registration, hp, hc, hcap]
          intro kc hkc
          rcases mem_setKey _ _ _ _ hkc with he | he
          · rw [he]
            exact hb
          · exact hcb kc he
  · intro rid u
    rw [applyOp]
    rcases hl : lookup st.registrations rid with _ | stored
    · simp [update_registration, hl]
      exact hcb
    · rcases hu : u.status with _ | s
      · rcases hc : lookup st.courses stored.course_id with _ | course
        · simp [update_registration, hl, hu, hc]
          exact hcb
        · have hb : course.enrollment ≤ course.capacity :=
            hcb (stored.course_id, course) (lookup_mem _ _ _ hc)
          have hcond : ¬ (stored.status = "enrolled" ∧ stored.status = "dropped") := by
            rintro ⟨a, b⟩
            rw [a] at b
            exact absurd b (by decide)
          simp [update_registration, hl, hu, hc, hcond]
          intro kc hkc
          rcases mem_setKey _ _ _ _ hkc with he | he
          · rw [he]
            exact hb
          · exact hcb kc he
      · rcases hc : lookup st.courses stored.course_id with _ | course
        · simp [update_registration, hl, hu, hc]
          exact hcb
        · have hb : course.enrollment ≤ course.capacity :=
            hcb (stored.course_id, course) (lookup_mem _ _ _ hc)
          by_cases hcond : stored.status = "enrolled" ∧ s = "dropped"
          · rcases hw : findWaitlisted st.registrations course.id with _ | kw
            · simp [update_registration, hl, hu, hc, hcond, hw]
              intro kc hkc
              rcases mem_setKey _ _ _ _ hkc with he | he
              · rw [he]
                simp
                omega
              · rcases mem_setKey _ _ _ _ he with he2 | he2
                · rw [he2]
                  simp
                  omega
                · exact hcb kc he2
            · obtain ⟨k, w⟩ := kw
              simp [update_registration, hl, hu, hc, hcond, hw]
              intro kc hkc
              rcases mem_setKey _ _ _ _ hkc with he | he
              · rw [he]
                simp
                omega
              · rcases mem_setKey _ _ _ _ he with he2 | he2
                · rw [he2]
                  simp
                  omega
                · exact hcb kc he2
          · simp [update_registration, hl, hu, hc, hcond]
            intro kc hkc
            rcases mem_setKey _ _ _ _ hkc with he | he
            · rw [he]
              exact hb
            · exact hcb kc he

theorem C2_amended_capacity_bound_witness :
    CapBound sampleState ∧
    CapBound (applyOp sampleState (Op.createRegistration ⟨1, 10⟩ 30 0)) ∧
    CapBound (applyOp sampleState (Op.updateRegistration 20 ⟨some "dropped"⟩)) :=
  ⟨by decide,
    (C2_amended_capacity_bound sampleState (by decide)).1 ⟨1, 10⟩ 30 0,
    (C2_amended_capacity_bound sampleState (by decide)).2 20 ⟨some "dropped"⟩⟩

/-- C3 counterexample: a course whose client-supplied creation payload
had capacity 1 and enrollment 1 (N = 1): the claim requires the first N
= 1 creations to yield "enrolled", but the very first registration is
waitlisted because the course did not start at enrollment 0. -/
theorem C3_counterexample :
    regStatusOf (create_registration
      { persons := [(1, ⟨1, "alice"⟩)], addresses := [],
        courses := [(10, ⟨10, "COMS4153", "Ferguson", "Fri", "NWC", 1, 1, 0, 0⟩)],
        registrations := [] } ⟨1, 10⟩ 20 0) = some "waitlisted" := by decide

theorem C3_aux (front : List Nat) (lastId pid cid now : Nat) :
    ∀ (st : AppState) (c : CourseRead),
    (lookup st.persons pid).isSome = true →
    lookup st.courses cid = some c → c.id = cid →
    c.enrollment + (front.length : Int) = c.capacity →
    (createMany st pid cid (front ++ [lastId]) now).1.map RegistrationRead.status
        = List.replicate front.length "enrolled" ++ ["waitlisted"] ∧
    courseEnrollmentAt (createMany st pid cid (front ++ [lastId]) now).2 cid
        = some c.capacity := by
  induction front with
  | nil =>
    intro st c hp hc hcid hcap
    simp only [List.length_nil, Nat.cast_zero, add_zero] at hcap
    rcases hpl : lookup st.persons pid with _ | p
    · rw [hpl] at hp
      simp at hp
    · have hnl : ¬ (c.enrollment < c.capacity) := by omega
      constructor
      · simp [createMany, create_registration, hpl, hc, hnl]
      · simp [createMany, create_registration, hpl, hc, hnl, courseEnrollmentAt, hcid,
          setKey_lookup_eq st.courses cid c hc, hc, hcap]
  | cons fid front' ih =>
    intro st c hp hc hcid hcap
    simp only [List.length_cons] at hcap
    push_cast at hcap
    rcases hpl : lookup st.persons pid with _ | p
    · rw [hpl] at hp
      simp at hp
    · have hlt : c.enrollment < c.capacity := by omega
      obtain ⟨ih1, ih2⟩ := ih { persons := st.persons, addresses := st.addresses, courses := setKey st.courses cid { id := cid, coursenumber := c.coursenumber, instructor := c.instructor, time := c.time, location := c.location, capacity := c.capacity, enrollment := c.enrollment + 1, created_at := c.created_at, updated_at := c.updated_at }, registrations := setKey st.registrations fid { id := fid, person_id := pid, course_id := cid, status := "enrolled", created_at := now, updated_at := now } } { id := cid, coursenumber := c.coursenumber, instructor := c.instructor, time := c.time, location := c.location, capacity := c.capacity, enrollment := c.enrollment + 1, created_at := c.created_at, updated_at := c.updated_at } hp (lookup_setKey_self _ _ _) rfl (by show c.enrollment + 1 + (front'.length : Int) = c.capacity; omega)
      constructor
      · simp [createMany, create_registration, hpl, hc, hlt, hcid, setKey_setKey_same,
          ih1, List.replicate_succ]
      · simp [createMany, create_registration, hpl, hc, hlt, hcid, setKey_setKey_same]
        exact ih2

/-- C3 amended: for a course with capacity N that starts at enrollment 0
(the claim as frozen omits this precondition), creating N registrations
in sequence (person existing) yields N "enrolled" results, the (N+1)-th
yields "waitlisted", and the course's enrollment equals N after all N+1
creations. -/
theorem C3_amended_fill_to_capacity (st : AppState) (pid cid : Nat) (c : CourseRead)
    (N : Nat) (front : List Nat) (lastId now : Nat)
    (hp : (lookup st.persons pid).isSome = true)
    (hc : lookup st.courses cid = some c) (hcid : c.id = cid)
    (hcap : c.capacity = (N : Int)) (henr : c.enrollment = 0)
    (hlen : front.length = N) :
    (createMany st pid cid (front ++ [lastId]) now).1.map RegistrationRead.status
        = List.replicate N "enrolled" ++ ["waitlisted"] ∧
    courseEnrollmentAt (createMany st pid cid (front ++ [lastId]) now).2 cid
        = some (N : Int) := by
  have h := C3_aux front lastId pid cid now st c hp hc hcid
    (by rw [henr, hlen, hcap]; simp)
  rw [hlen, hcap] at h
  exact h

theorem C3_amended_fill_to_capacity_witness :
    ((lookup ({ persons := [(1, ⟨1, "alice"⟩)], addresses := [], courses := [(10, ⟨10, "COMS4153", "Ferguson", "Fri", "NWC", 1, 0, 0, 0⟩)], registrations := [] } : AppState).persons 1).isSome = true) ∧
    ((createMany { persons := [(1, ⟨1, "alice"⟩)], addresses := [], courses := [(10, ⟨10, "COMS4153", "Ferguson", "Fri", "NWC", 1, 0, 0, 0⟩)], registrations := [] } 1 10 ([30] ++ [31]) 0).1.map RegistrationRead.status
        = List.replicate 1 "enrolled" ++ ["waitlisted"] ∧
      courseEnrollmentAt (createMany { persons := [(1, ⟨1, "alice"⟩)], addresses := [], courses := [(10, ⟨10, "COMS4153", "Ferguson", "Fri", "NWC", 1, 0, 0, 0⟩)], registrations := [] } 1 10 ([30] ++ [31]) 0).2 10
        = some ((1 : Nat) : Int)) :=
  ⟨by decide,
    C3_amended_fill_to_capacity _ 1 10 ⟨10, "COMS4153", "Ferguson", "Fri", "NWC", 1, 0, 0, 0⟩
      1 [30] 31 0 (by decide) (by decide) rfl (by decide) rfl rfl⟩

/-- C7 counterexample: a course stored with enrollment 0 has enrollment
10 after `PATCH /courses/{id}` with payload `{"enrollment": 10}`, and
`POST /courses` stores the client-supplied enrollment (143): the
enrollment field is not mutated only by the registration workflow. -/
theorem C7_counterexample :
    courseEnrollmentAt ({ persons := [], addresses := [], courses := [(10, ⟨10, "COMS4153", "Ferguson", "Fri", "NWC", 160, 0, 0, 0⟩)], registrations := [] } : AppState) 10 = some 0 ∧
    courseEnrollmentAt (applyOp { persons := [], addresses := [], courses := [(10, ⟨10, "COMS4153", "Ferguson", "Fri", "NWC", 160, 0, 0, 0⟩)], registrations := [] } (Op.updateCourse 10 ⟨none, none, none, none, none, some 10⟩ 5)) 10 = some 10 ∧
    courseEnrollmentAt (create_course initialState ⟨"COMS4153", "Ferguson", "Fri", "NWC", 160, 143⟩ 10 0).2 10 = some 143 :=
  ⟨by decide, by decide, by decide⟩

/-- C7 amended: `PATCH /courses/{id}` leaves every course's enrollment
unchanged only when the payload does not supply an enrollment value, and
`POST /courses` sets the new course's enrollment from the client payload;
with an enrollment value in the patch payload the field is overwritten
(see the counterexample). -/
theorem C7_amended_patch_without_enrollment (st : AppState) (cid : Nat)
    (u : CourseUpdate) (now : Nat) (henr : u.enrollment = none) :
    (∀ q c', lookup (applyOp st (Op.updateCourse cid u now)).courses q = some c' →
      ∃ c, lookup st.courses q = some c ∧ c'.enrollment = c.enrollment) ∧
    (∀ cc fid now2, ((create_course st cc fid now2).1).enrollment = cc.enrollment) := by
  constructor
  · intro q c' hq
    rw [applyOp] at hq
    rcases hl : lookup st.courses cid with _ | stored
    · simp [update_course, hl] at hq
      exact ⟨c', hq, rfl⟩
    · simp [update_course, hl, henr] at hq
      by_cases hqe : q = cid
      · subst hqe
        rw [lookup_setKey_self] at hq
        have hce := Option.some.inj hq
        subst hce
        exact ⟨stored, hl, rfl⟩
      · rw [lookup_setKey_ne _ _ _ _ hqe] at hq
        exact ⟨c', hq, rfl⟩
  · intro cc fid now2
    rfl

theorem C7_amended_patch_without_enrollment_witness :
    ((⟨some "ELEN4153", none, none, none, none, none⟩ : CourseUpdate).enrollment = none) ∧
    ((∀ q c', lookup (applyOp sampleState (Op.updateCourse 10 ⟨some "ELEN4153", none, none, none, none, none⟩ 5)).courses q = some c' →
      ∃ c, lookup sampleState.courses q = some c ∧ c'.enrollment = c.enrollment) ∧
    (∀ cc fid now2, ((create_course sampleState cc fid now2).1).enrollment = cc.enrollment)) :=
  ⟨rfl, C7_amended_patch_without_enrollment sampleState 10
    ⟨some "ELEN4153", none, none, none, none, none⟩ 5 rfl⟩

/-- C8 counterexample: `POST /addresses` with an id of 7 in the payload
stores the record under 7 — the id comes from the client payload, not a
server-side generator — and a second create with the same id fails with
400, so not every well-formed create request succeeds. -/
theorem C8_counterexample :
    create_address initialState ⟨7, "s", "c", "st", "p", "co"⟩
        = Except.ok (⟨7, "s", "c", "st", "p", "co"⟩,
          { persons := [], addresses := [(7, ⟨7, "s", "c", "st", "p", "co"⟩)], courses := [], registrations := [] }) ∧
    create_address { persons := [], addresses := [(7, ⟨7, "s", "c", "st", "p", "co"⟩)], courses := [], registrations := [] } ⟨7, "s", "c", "st", "p", "co"⟩
        = Except.error (ApiError.badRequest "Address with this ID already exists") :=
  ⟨rfl, rfl⟩

/-- C8 amended: creating an Address does not follow the Person lifecycle:
the record's id is taken from the client payload and used as the storage
key; the create succeeds (returning the stored record, whose id is the
payload's) only when no address with that id exists, and fails with 400
otherwise, leaving the state unchanged. -/
theorem C8_amended_address_create (st : AppState) (a : AddressCreate) :
    (lookup st.addresses a.id = none →
      ∃ ar st', create_address st a = Except.ok (ar, st') ∧ ar.id = a.id ∧
        lookup st'.addresses a.id = some ar) ∧
    ((lookup st.addresses a.id).isSome = true →
      create_address st a
          = Except.error (ApiError.badRequest "Address with this ID already exists") ∧
      applyOp st (Op.createAddress a) = st) := by
  constructor
  · intro h
    have hns : ¬ ((lookup st.addresses a.id).isSome = true) := by simp [h]
    refine ⟨⟨a.id, a.street, a.city, a.state, a.postal_code, a.country⟩, { st with addresses := setKey st.addresses a.id ⟨a.id, a.street, a.city, a.state, a.postal_code, a.country⟩ }, ?_, rfl, ?_⟩
    · simp [create_address, hns]
    · exact lookup_setKey_self _ _ _
  · intro h
    constructor
    · simp [create_address, h]
    · simp [applyOp, create_address, h]

theorem C8_amended_address_create_witness :
    lookup initialState.addresses (AddressCreate.mk 7 "s" "c" "st" "p" "co").id = none ∧
    (∃ ar st', create_address initialState ⟨7, "s", "c", "st", "p", "co"⟩
        = Except.ok (ar, st') ∧
      ar.id = (AddressCreate.mk 7 "s" "c" "st" "p" "co").id ∧
      lookup st'.addresses (AddressCreate.mk 7 "s" "c" "st" "p" "co").id = some ar) :=
  ⟨rfl, (C8_amended_address_create initialState ⟨7, "s", "c", "st", "p", "co"⟩).1 rfl⟩
